import Mathlib

/-!
Shallow embedding of the DEP-11 metadata validator
(`contrib/dep11/dep11-validate.py`).

Python values parsed from the multi-document YAML catalog are modelled by
`YValue`; mapping keys in these catalogs are strings.  Python exceptions that
escape the validator are modelled by `Option`: a result of `none` means an
uncaught exception propagates to the caller.  The third-party pieces
(the YAML parser, the `voluptuous` schema engine's error-message texts, the
`xml.etree` fragment parser, `re` regular-expression matching and `urlparse`)
are modelled where noted; everything else is translated line by line from the
source.
-/

namespace DEP11

/-- A single-quote character, used when rebuilding the Python message
    strings of the source (which quote field names with it). -/
def sq : String := (Char.ofNat 39).toString

/-- Wrap a string in single quotes, as Python `%s` message templates of the
    source do with `'%s'`. -/
def quoted (t : String) : String := sq ++ t ++ sq

/-- Whether `pat` is an initial segment of `cs`. -/
def startsList (pat cs : List Char) : Bool :=
  match pat, cs with
  | [], _ => true
  | _ :: _, [] => false
  | p :: ps, c :: rest => p == c && startsList ps rest

/-- Whether `pat` occurs as a contiguous segment of `cs`. -/
def containsList (pat : List Char) : List Char → Bool
  | [] => startsList pat []
  | c :: cs => startsList pat (c :: cs) || containsList pat cs

/-- Substring test, modelling Python's `in` operator on strings. -/
def containsSub (s pat : String) : Bool := containsList pat.data s.data

/-- Character-membership test, modelling Python's `c in s`. -/
def strContainsChar (s : String) (c : Char) : Bool := s.data.contains c

/-- Initial-segment test, modelling Python's `s.startswith(pre)`. -/
def strStartsWith (s pre : String) : Bool := startsList pre.data s.data

/-- Final-segment test, modelling Python's `s.endswith(post)`. -/
def strEndsWith (s post : String) : Bool :=
  startsList post.data.reverse s.data.reverse

/-- Split `cs` at the first occurrence of `pat`, returning the text before
    and after it. -/
def splitAtSub (pat : List Char) : List Char → Option (List Char × List Char)
  | [] => if startsList pat [] then some ([], []) else none
  | c :: cs =>
    if startsList pat (c :: cs) then some ([], (c :: cs).drop pat.length)
    else match splitAtSub pat cs with
      | none => none
      | some (pre2, post) => some (c :: pre2, post)

/-- Split a character list on every slash, as the path pattern's segment
    structure requires. -/
def splitOnSlash : List Char → List (List Char)
  | [] => [[]]
  | c :: rest =>
    let r := splitOnSlash rest
    if c == '/' then [] :: r
    else match r with
      | h :: t => (c :: h) :: t
      | [] => [[c]]

/-- Loosely-typed values of the parsed document stream
    (Python scalars, lists and string-keyed mappings). -/
inductive YValue where
  | s (t : String)
  | i (n : Int)
  | b (v : Bool)
  | arr (xs : List YValue)
  | dict (kvs : List (String × YValue))
  | null

/-- Python truthiness (`bool(v)`) of a `YValue`. -/
def truthy : YValue → Bool
  | .s t => !t.isEmpty
  | .i n => n != 0
  | .b v => v
  | .arr xs => !xs.isEmpty
  | .dict kvs => !kvs.isEmpty
  | .null => false

/-- Mapping lookup: Python `d.get(k)` on a dict (keys are unique, the first
    binding wins). -/
def dictGet (d : List (String × YValue)) (k : String) : Option YValue :=
  match d with
  | [] => none
  | (k2, v) :: rest => if k2 == k then some v else dictGet rest k

/-- Truthiness of the result of a `.get` call (`None` is falsy). -/
def truthyO : Option YValue → Bool
  | none => false
  | some v => truthy v

/-- Python hashability: lists and dicts cannot be dictionary keys
    (using one raises `TypeError`). -/
def hashable : YValue → Bool
  | .arr _ => false
  | .dict _ => false
  | _ => true

/-- Equality of hashable (scalar) values, as used for the `ids_found`
    dictionary keys.  Python's cross-type numeric equality (`True == 1`)
    is not modelled; the catalog IDs compared here are strings. -/
def beqScalar : YValue → YValue → Bool
  | .s a, .s c => a == c
  | .i a, .i c => a == c
  | .b a, .b c => a == c
  | .null, .null => true
  | _, _ => false

mutual

/-- Python `repr` of a value, as used by `%s` formatting of containers.
    String escaping inside `repr` is not modelled (the quotes are). -/
def pyRepr : YValue → String
  | .s t => sq ++ t ++ sq
  | .i n => toString n
  | .b true => "True"
  | .b false => "False"
  | .null => "None"
  | .arr xs => "[" ++ pyReprList xs ++ "]"
  | .dict kvs => "\x7b" ++ pyReprDict kvs ++ "\x7d"

/-- Comma-separated `repr` of list elements. -/
def pyReprList : List YValue → String
  | [] => ""
  | [x] => pyRepr x
  | x :: y :: xs => pyRepr x ++ ", " ++ pyReprList (y :: xs)

/-- Comma-separated `repr` of dict items. -/
def pyReprDict : List (String × YValue) → String
  | [] => ""
  | [(k, v)] => sq ++ k ++ sq ++ ": " ++ pyRepr v
  | (k, v) :: y :: xs => sq ++ k ++ sq ++ ": " ++ pyRepr v ++ ", " ++ pyReprDict (y :: xs)

end

/-- Python `str(v)`, as used by `"%s" % v` in the issue messages. -/
def pyStr : YValue → String
  | .s t => t
  | v => pyRepr v

/-- Mutable state of one validator object: the `ret` flag of the running
    check and the `issue_list` the checks append to. -/
structure VState where
  ret : Bool
  issues : List String
deriving DecidableEq

/-- `self.add_issue(msg)` together with `ret = False`, the shape of every
    fatal branch of the source. -/
def VState.fail (st : VState) (msg : String) : VState :=
  { ret := false, issues := st.issues ++ [msg] }

/-- Fold one sub-check's result into the state, the shape of every
    `if not self._test_...(...): ret = False` call site. -/
def applyCheck (st : VState) (r : Bool × List String) : VState :=
  { ret := st.ret && r.1, issues := st.issues ++ r.2 }

/-- Sequence two sub-check results: the booleans are conjoined and the
    issues concatenated in emission order. -/
def combine (x y : Bool × List String) : Bool × List String :=
  (x.1 && y.1, x.2 ++ y.2)

/-! ### Issue message texts of the source -/

/-- Message of the `if not doc` branch of `validate`. -/
def msgEmptyDoc : String := "FATAL: Empty document found."

/-- Message of the `if not docid` branch of `validate`. -/
def msgNoId : String := "FATAL: Component without ID found."

/-- Message of the `ids_found.get(docid)` branch of `validate`. -/
def msgDup (idS : String) : String :=
  "FATAL: Found two components with the same ID: " ++ idS ++ "."

/-- Message recorded when `schema_component(doc)` raises, `e` being the
    text of the schema error. -/
def msgSchema (idS e : String) : String := "[" ++ idS ++ "]: " ++ e

/-- Message of the application-must-have-icon rule. -/
def msgNeedIcon (idS : String) : String :=
  "[" ++ idS ++ "]: Components containing an application must have an "
    ++ quoted "Icon" ++ " key."

/-- Message of the stock/cached/local icon-source rule. -/
def msgIconSource (idS : String) : String :=
  "[" ++ idS ++ "]: A " ++ quoted "stock" ++ ", " ++ quoted "cached"
    ++ " or " ++ quoted "local" ++ " icon must at least be provided. @ data["
    ++ quoted "Icon" ++ "]"

/-- Common `"[%s][%s]: "` scope prefix of `_test_localized_dict` messages. -/
def locPre (idS key : String) : String := "[" ++ idS ++ "][" ++ key ++ "]: "

/-- Cruft-locale message of `_test_localized_dict` (tag is `x-test` or `xx`). -/
def msgCruft (idS key tag : String) : String :=
  locPre idS key ++ "Found cruft locale: " ++ tag

/-- Encoding-suffix message of `_test_localized_dict`. -/
def msgUTF8 (idS key : String) : String :=
  locPre idS key
    ++ "AppStream locale names should not specify encoding (ends with .UTF-8)"

/-- Quoted-value message of `_test_localized_dict`. -/
def msgQuotedVal (idS key v lang : String) : String :=
  locPre idS key ++ "String is quoted: " ++ quoted v ++ " @ " ++ lang

/-- Locale-contains-space message of `_test_localized_dict`. -/
def msgSpace (idS key lang : String) : String :=
  locPre idS key ++ "Locale name contains space: " ++ quoted lang

/-- Message of the `!!python/` pre-pass, `i` being the 0-based line index. -/
def msgPyObj (i : Nat) : String :=
  "Python object encoded in line " ++ toString i ++ "."

/-- Message recorded when the document stream cannot be parsed. -/
def msgParseFail (e : String) : String := "Could not parse file: " ++ e

/-- Message recorded when `schema_header(header)` raises. -/
def msgHeaderBad (e : String) : String := "Invalid DEP-11 header: " ++ e

/-! ### Localization auditor (`_test_localized_dict`, `_test_localized`) -/

/-- One iteration of the `for lang, value in ldict.items()` loop of
    `_test_localized_dict`: the issues it appends and its effect on `ret`.
    `value.startswith` on a non-string value raises, modelled by `none`. -/
def localeEntry (idS key lang : String) (value : YValue) :
    Option (Bool × List String) :=
  let l1 := if lang == "x-test" then [msgCruft idS key "x-test"] else []
  let l2 := if lang == "xx" then [msgCruft idS key "xx"] else []
  let l3 := if strEndsWith lang ".UTF-8" then [msgUTF8 idS key] else []
  match value with
  | .s v =>
    let l4 := if strStartsWith v "\"" || strStartsWith v sq then
        [msgQuotedVal idS key v lang] else []
    if strContainsChar lang ' ' then
      some (false, l1 ++ l2 ++ l3 ++ l4 ++ [msgSpace idS key lang])
    else
      some (true, l1 ++ l2 ++ l3 ++ l4)
  | _ => none

/-- `_test_localized_dict(self, doc, ldict, id_string)`: audits every
    `(lang, value)` item; only the locale-contains-space defect flips the
    returned flag to `False`.  `idS` is `doc['ID']` as a string. -/
def testLocalizedDict (idS key : String) :
    List (String × YValue) → Option (Bool × List String)
  | [] => some (true, [])
  | (lang, value) :: rest =>
    match localeEntry idS key lang value with
    | none => none
    | some r1 =>
      match testLocalizedDict idS key rest with
      | none => none
      | some r2 => some (combine r1 r2)

/-- `_test_localized(self, doc, key)`: a missing or falsy field passes;
    a truthy non-mapping field raises when `.items()` is called. -/
def testLocalized (idS : String) (d : List (String × YValue)) (key : String) :
    Option (Bool × List String) :=
  match dictGet d key with
  | none => some (true, [])
  | some v =>
    if !truthy v then some (true, [])
    else match v with
      | .dict ldict => testLocalizedDict idS key ldict
      | _ => none

/-! ### Unsafe-serialization pre-pass (`_test_custom_objects`) -/

/-- The `for i in range(0, len(lines))` loop of `_test_custom_objects`,
    `i` being the index of the first line of the suffix. -/
def tcoAux (i : Nat) : List String → Bool × List String
  | [] => (true, [])
  | line :: rest =>
    let r := tcoAux (i + 1) rest
    if containsSub line "!!python/" then (false, [msgPyObj i] ++ r.2)
    else r

/-- `_test_custom_objects(self, lines)`: scans every raw input line for the
    `!!python/` tag; each hit appends one issue and makes the result `False`. -/
def testCustomObjects (lines : List String) : Bool × List String :=
  tcoAux 0 lines

/-! ### Description markup validator
(`_validate_description_tag`, `_validate_description`)

`xml.etree` is an external capability; a description fragment is therefore
taken as already parsed: either a parse error (the `except` branch of
`_validate_description`) or the list of children of the synthetic `<root>`
wrapper element. -/

/-- An element of the parsed markup fragment, as `xml.etree` presents it:
    tag name, attribute mapping (with namespace-expanded keys), text and
    child elements. -/
inductive XNode where
  | mk (tag : String) (attrib : List (String × String)) (text : Option String)
       (children : List XNode)

/-- Tag name of an element. -/
def XNode.tag : XNode → String
  | .mk t _ _ _ => t

/-- Attribute mapping of an element. -/
def XNode.attrib : XNode → List (String × String)
  | .mk _ a _ _ => a

/-- Text of an element (`None` when absent). -/
def XNode.text : XNode → Option String
  | .mk _ _ t _ => t

/-- Child elements of an element. -/
def XNode.children : XNode → List XNode
  | .mk _ _ _ c => c

/-- The namespace-expanded attribute key `xml.etree` gives to `xml:lang`. -/
def xmlLangKey : String :=
  "\x7bhttp://www.w3.org/XML/1998/namespace\x7dlang"

/-- Attribute lookup, Python `child.attrib.get(k)`. -/
def attribGet (a : List (String × String)) (k : String) : Option String :=
  match a with
  | [] => none
  | (k2, v) :: rest => if k2 == k then some v else attribGet rest k

/-- Truthiness of an optional string (`None` and `""` are falsy). -/
def truthyS : Option String → Bool
  | none => false
  | some v => !v.isEmpty

/-- Python `repr` of an `xml.etree` attribute dict, as interpolated by the
    has-attributes message (string escaping not modelled). -/
def attribRepr (a : List (String × String)) : String :=
  "\x7b"
    ++ String.intercalate ", "
        (a.map fun kv => sq ++ kv.1 ++ sq ++ ": " ++ sq ++ kv.2 ++ sq)
    ++ "\x7d"

/-- Python `str` of an element's text, `None` included. -/
def textStr : Option String → String
  | none => "None"
  | some t => t

/-- Tag-not-allowed message of `_validate_description_tag`. -/
def msgBadTag (idS tag : String) : String :=
  "[" ++ idS ++ "]: Invalid description markup found: " ++ quoted tag
    ++ " @ data[" ++ quoted "Description" ++ "]"

/-- Localized-tag message of `_validate_description_tag`. -/
def msgLocTag (idS tag : String) (text : Option String) : String :=
  "[" ++ idS ++ "]: Invalid, localized tag in long description: "
    ++ quoted tag ++ " => " ++ textStr text ++ " @ data["
    ++ quoted "Description" ++ "]"

/-- Has-attributes message of `_validate_description_tag`. -/
def msgAttrs (idS tag : String) (a : List (String × String)) : String :=
  "[" ++ idS ++ "]: Markup tag has attributes: " ++ quoted tag ++ " => "
    ++ attribRepr a ++ " @ data[" ++ quoted "Description" ++ "]"

/-- Broken-markup message of `_validate_description`, `e` being the text of
    the parse error. -/
def msgBroken (idS e : String) : String :=
  "[" ++ idS ++ "]: Broken description markup found: " ++ e ++ " @ data["
    ++ quoted "Description" ++ "]"

/-- `_validate_description_tag(self, docid, child, allowed_tags)`: checks the
    tag against the allow-list, then the attributes — a truthy `xml:lang`
    takes the localized-tag branch, otherwise any attribute at all takes the
    has-attributes branch (`elif`). -/
def validateDescriptionTag (idS : String) (child : XNode)
    (allowedTags : List String) : Bool × List String :=
  let r1 : Bool × List String :=
    if !allowedTags.contains child.tag then
      (false, [msgBadTag idS child.tag])
    else (true, [])
  let r2 : Bool × List String :=
    if truthyS (attribGet child.attrib xmlLangKey) then
      (false, [msgLocTag idS child.tag child.text])
    else if child.attrib.length > 0 then
      (false, [msgAttrs idS child.tag child.attrib])
    else (true, [])
  combine r1 r2

/-- An already-parsed description fragment: the `except` branch of
    `ET.fromstring`, or the children of the synthetic root element. -/
inductive DescParse where
  | fail (err : String)
  | ok (children : List XNode)

/-- Check of the grandchildren of a `ul`/`ol` child: every one must be `li`. -/
def validateListItems (idS : String) (items : List XNode) : Bool × List String :=
  items.foldl
    (fun acc c2 => combine acc (validateDescriptionTag idS c2 ["li"]))
    (true, [])

/-- `_validate_description(self, docid, desc)`: parse failure is one fatal
    issue; otherwise only the root's direct children are walked against
    `p`/`ul`/`ol`, descending one level further only below `ul` and `ol`. -/
def validateDescription (idS : String) (p : DescParse) : Bool × List String :=
  match p with
  | .fail e => (false, [msgBroken idS e])
  | .ok children =>
    children.foldl
      (fun acc child =>
        let r1 := validateDescriptionTag idS child ["p", "ul", "ol"]
        let r2 : Bool × List String :=
          if child.tag == "ul" || child.tag == "ol" then
            validateListItems idS child.children
          else (true, [])
        combine acc (combine r1 r2))
      (true, [])

/-! ### Structural schemas

The source declares its schemas with the third-party `voluptuous` engine;
each is translated here into an executable validator
`YValue → Option String` where `none` means the value conforms and
`some e` carries an error text.  Key sets, required fields and value shapes
follow the source schema declarations; the error-message texts and the
first-reported-error choice are modelled (the source delegates both to the
engine). -/

/-- A value of string type. -/
def isStrV : YValue → Bool
  | .s _ => true
  | _ => false

/-- `All(str, Length(min=1))`. -/
def vStr1 : YValue → Option String
  | .s t => if t.isEmpty then some "length of value must be at least 1" else none
  | _ => some "expected str"

/-- `All(list, [str], Length(min=1))`. -/
def vStrList1 : YValue → Option String
  | .arr xs =>
    if !xs.all isStrV then some "expected str"
    else if xs.isEmpty then some "length of value must be at least 1"
    else none
  | _ => some "expected a list"

/-- `All(int, Range(min=10))`. -/
def vInt10 : YValue → Option String
  | .i n => if n < 10 then some "value must be at least 10" else none
  | _ => some "expected int"

/-- `All(bool)`. -/
def vBool : YValue → Option String
  | .b _ => none
  | _ => some "expected bool"

/-- Modelled third-party check: `voluptuous.Url()` accepts a string that
    splits into a non-empty scheme and a non-empty network location. -/
def urlOk (s : String) : Bool :=
  match splitAtSub "://".data s.data with
  | some (scheme, rest) =>
    !scheme.isEmpty && !(rest.takeWhile (fun c => c != '/')).isEmpty
  | none => false

/-- `All(str, Url())`. -/
def vUrl : YValue → Option String
  | .s t => if urlOk t then none else some "expected a URL"
  | _ => some "expected str"

/-- Modelled third-party check: `re.match` with the source's `.*[.].*$`
    pattern on the cached-icon entry holds exactly when the string contains
    a dot. -/
def vCached : YValue → Option String
  | .s t =>
    if strContainsChar t '.' then none
    else some "Icon entry is missing filename or extension"
  | _ => some "expected str"

/-- A quote character as the source's local-icon pattern allows. -/
def isQuoteChar (c : Char) : Bool := c == Char.ofNat 39 || c == '"'

/-- The `(?:/[^/]+)*` core of the local-icon pattern: empty, or slash-led
    non-empty segments. -/
def pathCore (c : List Char) : Bool :=
  c.isEmpty ||
  (match splitOnSlash c with
   | [] :: rest => !rest.isEmpty && rest.all (fun p => !p.isEmpty)
   | _ => false)

/-- Modelled third-party check: `re.match` with the source's local-icon
    pattern `^['"]?(?:/[^/]+)*['"]?$`; each optional quote character is
    tried both consumed and left to the segment core. -/
def localPathOk (s : String) : Bool :=
  let cs := s.data
  let starts := match cs with
    | c :: rest => if isQuoteChar c then [cs, rest] else [cs]
    | [] => [cs]
  starts.any fun t =>
    let ends := match t.getLast? with
      | some c => if isQuoteChar c then [t, t.dropLast] else [t]
      | none => [t]
    ends.any pathCore

/-- The local-icon entry of `schema_icon`. -/
def vLocal : YValue → Option String
  | .s t =>
    if localPathOk t then none
    else some "Icon entry should be an absolute path"
  | _ => some "expected str"

/-- Default `voluptuous` behaviour: a key outside the declared set is
    rejected. -/
def extraKeys (d : List (String × YValue)) (ks : List String) : Option String :=
  match d.find? (fun kv => !ks.contains kv.1) with
  | some kv => some ("extra keys not allowed @ data[" ++ quoted kv.1 ++ "]")
  | none => none

/-- Missing-required-key error. -/
def msgReqKey (k : String) : String :=
  "required key not provided @ data[" ++ quoted k ++ "]"

/-- A `Required(k)` field: the key must be present and its value conform. -/
def req (d : List (String × YValue)) (k : String) (f : YValue → Option String) :
    Option String :=
  match dictGet d k with
  | none => some (msgReqKey k)
  | some v => (f v).map (fun e => e ++ " @ data[" ++ quoted k ++ "]")

/-- An optional field: checked only when present. -/
def opt (d : List (String × YValue)) (k : String) (f : YValue → Option String) :
    Option String :=
  match dictGet d k with
  | none => none
  | some v => (f v).map (fun e => e ++ " @ data[" ++ quoted k ++ "]")

/-- `All(dict, Length(min=1), sub)`. -/
def vDict1 (sub : YValue → Option String) (v : YValue) : Option String :=
  match v with
  | .dict d =>
    if d.isEmpty then some "length of value must be at least 1"
    else sub (.dict d)
  | _ => some "expected a dictionary"

/-- `All(list, Length(min=1), [sub])`. -/
def vList1Of (sub : YValue → Option String) (v : YValue) : Option String :=
  match v with
  | .arr xs =>
    if xs.isEmpty then some "length of value must be at least 1"
    else xs.findSome? sub
  | _ => some "expected a list"

/-- `schema_translated`: requires an unlocalized `C` key holding a non-empty
    string.  The source's `dict:` row keys on mapping-typed keys and so
    matches no string locale tag; with `extra = True` every other key passes
    unchecked. -/
def schemaTranslated : YValue → Option String
  | .dict d =>
    (match dictGet d "C" with
     | none => some ("Must have an unlocalized " ++ quoted "C" ++ " key")
     | some c =>
       match vStr1 c with
       | some _ => some ("Must have an unlocalized " ++ quoted "C" ++ " key")
       | none => none)
  | _ => some "expected a dictionary"

/-- `schema_keywords`: requires an unlocalized `C` key holding a non-empty
    list of strings; other keys pass as in `schema_translated`. -/
def schemaKeywords : YValue → Option String
  | .dict d =>
    (match dictGet d "C" with
     | none => some ("Must have an unlocalized " ++ quoted "C" ++ " key")
     | some c =>
       match vStrList1 c with
       | some _ => some ("Must have an unlocalized " ++ quoted "C" ++ " key")
       | none => none)
  | _ => some "expected a dictionary"

/-- `All(dict, {str: str}, Length(min=1), schema_translated)`, the shape of
    `Summary` and `Description`. -/
def vStrStrDict (v : YValue) : Option String :=
  match v with
  | .dict d =>
    if !(d.all fun kv => isStrV kv.2) then some "expected str"
    else if d.isEmpty then some "length of value must be at least 1"
    else schemaTranslated (.dict d)
  | _ => some "expected a dictionary"

/-- `schema_image`. -/
def schemaImage : YValue → Option String
  | .dict d =>
    extraKeys d ["width", "height", "url"] <|>
    req d "width" vInt10 <|>
    req d "height" vInt10 <|>
    req d "url" vUrl
  | _ => some "expected a dictionary"

/-- `schema_screenshots`: `default` carries `default=False`, so its absence
    is filled in rather than rejected. -/
def schemaScreenshot : YValue → Option String
  | .dict d =>
    extraKeys d ["default", "source-image", "thumbnails", "caption"] <|>
    opt d "default" vBool <|>
    req d "source-image" (vDict1 schemaImage) <|>
    opt d "thumbnails" (vList1Of schemaImage) <|>
    opt d "caption" (vDict1 schemaTranslated)
  | _ => some "expected a dictionary"

/-- `schema_icon`: all four entries optional. -/
def schemaIcon : YValue → Option String
  | .dict d =>
    extraKeys d ["stock", "cached", "local", "remote"] <|>
    opt d "stock" vStr1 <|>
    opt d "cached" vCached <|>
    opt d "local" vLocal <|>
    opt d "remote" vUrl
  | _ => some "expected a dictionary"

/-- The relation names `schema_url` accepts. -/
def urlKeys : List String := ["homepage", "bugtracker", "faq", "help", "donation"]

/-- `schema_url`. -/
def schemaUrl : YValue → Option String
  | .dict d =>
    extraKeys d urlKeys <|> urlKeys.findSome? (fun k => opt d k vUrl)
  | _ => some "expected a dictionary"

/-- `schema_provides_dbus`. -/
def schemaDbusEntry : YValue → Option String
  | .dict d =>
    extraKeys d ["type", "service"] <|>
    req d "type" vStr1 <|>
    req d "service" vStr1
  | _ => some "expected a dictionary"

/-- The capability classes `schema_provides` accepts beside `dbus`. -/
def providesKeys : List String :=
  ["mimetypes", "binaries", "libraries", "python3", "python2", "firmware",
   "modaliases", "fonts"]

/-- `schema_provides`. -/
def schemaProvides : YValue → Option String
  | .dict d =>
    extraKeys d (providesKeys ++ ["dbus"]) <|>
    providesKeys.findSome? (fun k => opt d k vStrList1) <|>
    opt d "dbus" (vList1Of schemaDbusEntry)
  | _ => some "expected a dictionary"

/-- The component kinds the `Type` field accepts. -/
def componentKinds : List String :=
  ["generic", "desktop-app", "web-app", "addon", "codec", "inputmethod", "font"]

/-- The `Type` field: a string drawn from `componentKinds`. -/
def vType : YValue → Option String
  | .s t => if componentKinds.contains t then none else some "not a valid value"
  | _ => some "expected str"

/-- The keys `schema_component` declares. -/
def componentKeys : List String :=
  ["Type", "ID", "Name", "Packages", "Summary", "Description", "Categories",
   "CompulsoryForDesktops", "Url", "Icon", "Keywords", "Provides",
   "ProjectGroup", "ProjectLicense", "DeveloperName", "Screenshots", "Extends"]

/-- First reported error among a sequence of sub-checks. -/
def firstErr : List (Option String) → Option String
  | [] => none
  | none :: rest => firstErr rest
  | some e :: _ => some e

/-- `schema_component`: the structural schema of one component document. -/
def schemaComponent : YValue → Option String
  | .dict d =>
    firstErr
      [extraKeys d componentKeys,
       req d "Type" vType,
       req d "ID" vStr1,
       req d "Name" (vDict1 schemaTranslated),
       req d "Packages" vStrList1,
       opt d "Summary" vStrStrDict,
       opt d "Description" vStrStrDict,
       opt d "Categories" vStrList1,
       opt d "CompulsoryForDesktops" vStrList1,
       opt d "Url" (vDict1 schemaUrl),
       opt d "Icon" (vDict1 schemaIcon),
       opt d "Keywords" (vDict1 schemaKeywords),
       opt d "Provides" (vDict1 schemaProvides),
       opt d "ProjectGroup" vStr1,
       opt d "ProjectLicense" vStr1,
       opt d "DeveloperName" (vDict1 schemaTranslated),
       opt d "Screenshots" (vList1Of schemaScreenshot),
       opt d "Extends" vStrList1]
  | _ => some "expected a dictionary"

/-- The fixed format tag the `File` header field must equal. -/
def vFileTag : YValue → Option String
  | .s t => if t == "DEP-11" then none else some ("Must be " ++ "\"DEP-11\"")
  | _ => some ("Must be " ++ "\"DEP-11\"")

/-- Modelled third-party check: `re.match` with `(\d+\.?)+$` — equivalent to
    a non-empty digits-and-dots string that starts with a digit and has no
    two consecutive dots. -/
def versionOk (s : String) : Bool :=
  match s.toList with
  | [] => false
  | c :: cs =>
    c.isDigit && (c :: cs).all (fun x => x.isDigit || x == '.')
      && !(containsSub s "..")

/-- The `Version` header field. -/
def vVersion : YValue → Option String
  | .s t => if versionOk t then none else some "Must be a valid version number"
  | _ => some "Must be a valid version number"

/-- `schema_header`. -/
def schemaHeader : YValue → Option String
  | .dict d =>
    extraKeys d ["File", "Origin", "Version"] <|>
    req d "File" vFileTag <|>
    req d "Origin" vStr1 <|>
    req d "Version" vVersion
  | _ => some "expected a dictionary"

/-! ### Validation orchestrator (`DEP11Validator.validate`) -/

/-- `doc['Type'] == "desktop-app" or doc['Type'] == "web-app"` (Python
    equality of a parsed value and a string literal). -/
def isAppType : YValue → Bool
  | .s t => t == "desktop-app" || t == "web-app"
  | _ => false

/-- The application-must-declare-an-icon rule of `validate` (the first of
    the two icon tests). -/
def iconRequired (idS : String) (d : List (String × YValue)) (ty : YValue) :
    Bool × List String :=
  if isAppType ty && !truthyO (dictGet d "Icon") then (false, [msgNeedIcon idS])
  else (true, [])

/-- `(not icon.get('stock')) and (not icon.get('cached')) and
    (not icon.get('local'))`. -/
def iconSourceMissing (icd : List (String × YValue)) : Bool :=
  !truthyO (dictGet icd "stock") && !truthyO (dictGet icd "cached")
    && !truthyO (dictGet icd "local")

/-- The icon cross-field rules of `validate`: a component of an application
    kind must declare an `Icon`, and a truthy `Icon` must have a `stock`,
    `cached` or `local` source.  `icon.get` on a truthy non-mapping `Icon`
    raises. -/
def iconChecks (idS : String) (d : List (String × YValue)) (ty : YValue) :
    Option (Bool × List String) :=
  match dictGet d "Icon" with
  | some ic =>
    if truthy ic then
      match ic with
      | .dict icd =>
        if iconSourceMissing icd then
          some (combine (iconRequired idS d ty) (false, [msgIconSource idS]))
        else some (iconRequired idS d ty)
      | _ => none
    else some (iconRequired idS d ty)
  | none => some (iconRequired idS d ty)

/-- Caption audit of one screenshot mapping: a missing or falsy `caption`
    passes, a truthy mapping goes through `_test_localized_dict`, a truthy
    non-mapping raises. -/
def captionCheck (idS : String) (sd : List (String × YValue)) :
    Option (Bool × List String) :=
  match dictGet sd "caption" with
  | none => some (true, [])
  | some cap =>
    if !truthy cap then some (true, [])
    else match cap with
      | .dict c => testLocalizedDict idS "Screenshots.caption" c
      | _ => none

/-- Caption audit of one screenshot list; a non-mapping screenshot raises
    at `shot.get`. -/
def shotFold (idS : String) : List YValue → Option (Bool × List String)
  | [] => some (true, [])
  | shot :: rest =>
    match shot with
    | .dict sd =>
      match captionCheck idS sd with
      | none => none
      | some r1 =>
        match shotFold idS rest with
        | none => none
        | some r2 => some (combine r1 r2)
    | _ => none

/-- The `for shot in doc.get('Screenshots', list())` loop of `validate`.
    Iterating an empty string or mapping yields nothing; iterating any
    other truthy non-list (or `None`) raises at the loop or at
    `shot.get`. -/
def screenshotChecks (idS : String) (d : List (String × YValue)) :
    Option (Bool × List String) :=
  match dictGet d "Screenshots" with
  | none => some (true, [])
  | some (.arr shots) => shotFold idS shots
  | some (.s t) => if t.isEmpty then some (true, []) else none
  | some (.dict kvs) => if kvs.isEmpty then some (true, []) else none
  | some _ => none

/-- The `for d in desc.values()` loop of `validate`: every value of the
    `Description` mapping is string-formatted and handed to
    `_validate_description`.  `.values()` on a non-mapping value raises. -/
def descriptionChecks (pd : String → DescParse) (idS : String)
    (d : List (String × YValue)) : Option (Bool × List String) :=
  match dictGet d "Description" with
  | none => some (true, [])
  | some (.dict dd) =>
    some (dd.foldl
      (fun acc kv => combine acc (validateDescription idS (pd (pyStr kv.2))))
      (true, []))
  | some _ => none

/-- The semantic checks `validate` runs on a document once its schema check
    passed: icon cross-field rules, the localization audits of `Name`,
    `Summary`, `Description` and `DeveloperName`, screenshot captions and
    the description markup walk, in source order.  `doc['Type']` raises
    when the key is absent.  Returns the conjoined flag and the issues
    appended, or `none` when a check raises. -/
def semanticChecks (pd : String → DescParse) (idS : String)
    (d : List (String × YValue)) : Option (Bool × List String) :=
  match dictGet d "Type" with
  | none => none
  | some ty =>
    match iconChecks idS d ty with
    | none => none
    | some r1 =>
      match testLocalized idS d "Name" with
      | none => none
      | some r2 =>
        match testLocalized idS d "Summary" with
        | none => none
        | some r3 =>
          match testLocalized idS d "Description" with
          | none => none
          | some r4 =>
            match testLocalized idS d "DeveloperName" with
            | none => none
            | some r5 =>
              match screenshotChecks idS d with
              | none => none
              | some r6 =>
                match descriptionChecks pd idS d with
                | none => none
                | some r7 =>
                  some (combine r1 (combine r2 (combine r3 (combine r4
                    (combine r5 (combine r6 r7))))))

/-- Processing of one document of the stream (the `for doc in docs` body of
    `validate`).  `doc.get('ID')` runs first and raises on a non-mapping
    document — the empty document `None` included — before the
    `if not doc` guard can fire; a fatal identity or schema defect records
    one issue and skips the rest of the body (`continue`).  Returns the
    updated `ids_found` and state, or `none` when an exception
    propagates. -/
def processDoc (pd : String → DescParse) (idsFound : List YValue)
    (st : VState) (doc : YValue) : Option (List YValue × VState) :=
  match doc with
  | .dict d =>
    let docid := dictGet d "ID"
    if d.isEmpty then some (idsFound, st.fail msgEmptyDoc)
    else if !truthyO docid then some (idsFound, st.fail msgNoId)
    else
      match docid with
      | none => none
      | some idv =>
        if !hashable idv then none
        else if idsFound.any (fun x => beqScalar x idv) then
          some (idsFound, st.fail (msgDup (pyStr idv)))
        else
          let ids2 := idsFound ++ [idv]
          match schemaComponent (.dict d) with
          | some e => some (ids2, st.fail (msgSchema (pyStr idv) e))
          | none =>
            match semanticChecks pd (pyStr idv) d with
            | none => none
            | some r => some (ids2, applyCheck st r)
  | _ => none

/-- The document loop of `validate`, threading `ids_found` and the state. -/
def processDocs (pd : String → DescParse) :
    List YValue → List YValue → VState → Option VState
  | [], _, st => some st
  | doc :: rest, ids, st =>
    match processDoc pd ids st doc with
    | none => none
    | some (ids2, st2) => processDocs pd rest ids2 st2

/-- Result of handing the raw file to the external multi-document parser:
    either the exception caught by the `try` around
    `yaml.load_all`/`next(docs)` (a stream with no document at all raises
    there too), or the header document followed by the component documents.
    The source consumes the stream lazily; it is modelled as parsed up
    front. -/
inductive ParseResult where
  | fail (err : String)
  | ok (header : YValue) (docs : List YValue)

/-- One input file: its raw lines (for the `!!python/` pre-pass) and its
    parse result. -/
structure InputFile where
  lines : List String
  parsed : ParseResult

/-- `DEP11Validator.validate(self, fname)`.  `issues0` is the content of
    `self.issue_list` when the call starts: the source keeps the issue list
    in a class attribute (`issue_list = list()` in the class body), so every
    run appends to the list left by the previous ones.  Returns the verdict
    and the final issue list, or `none` when an exception propagates. -/
def validate (pd : String → DescParse) (input : InputFile)
    (issues0 : List String) : Option (Bool × List String) :=
  let t := testCustomObjects input.lines
  let st0 : VState := { ret := t.1, issues := issues0 ++ t.2 }
  match input.parsed with
  | .fail e => some (false, (st0.fail (msgParseFail e)).issues)
  | .ok header docs =>
    let st1 := match schemaHeader header with
      | some e => st0.fail (msgHeaderBad e)
      | none => st0
    match processDocs pd docs [] st1 with
    | none => none
    | some st2 => some (st2.ret, st2.issues)

/-- `DEP11Validator.clear_issues` is declared without a `self` parameter
    yet is called on instances; any such call raises (`TypeError` at the
    call, `NameError` on `self` otherwise), so the class-attribute issue
    list is never actually reset.  Modelled as an always-raising call. -/
def clearIssues : Option Unit := none

/-! ### Concrete inputs used by the theorems -/

/-- A fragment oracle for inputs whose descriptions are never parsed. -/
def pdNone : String → DescParse := fun _ => DescParse.ok []

/-- A well-formed desktop-app component mapping with a stock icon. -/
def goodDocKvs : List (String × YValue) :=
  [("Type", .s "desktop-app"), ("ID", .s "app"),
   ("Name", .dict [("C", .s "App")]), ("Packages", .arr [.s "pkg"]),
   ("Icon", .dict [("stock", .s "foo")])]

/-- A desktop-app component missing its required `Packages` field (a schema
    violation) and carrying no `Icon` (the icon rule would fire on it if the
    semantic checks ran). -/
def noPkgKvs : List (String × YValue) :=
  [("Type", .s "desktop-app"), ("ID", .s "app"),
   ("Name", .dict [("C", .s "App")])]

/-- A schema-valid desktop-app component with no `Icon` field. -/
def noIconKvs : List (String × YValue) :=
  [("Type", .s "desktop-app"), ("ID", .s "app"),
   ("Name", .dict [("C", .s "App")]), ("Packages", .arr [.s "pkg"])]

/-- A well-formed header document. -/
def goodHeader : YValue :=
  .dict [("File", .s "DEP-11"), ("Origin", .s "test"), ("Version", .s "0.8")]

/-- Parsed children of the fragment `<p>ok</p>`. -/
def descPOk : List XNode := [.mk "p" [] (some "ok") []]

/-- Parsed children of the fragment `<ul><li>x</li></ul>`. -/
def descUlOk : List XNode := [.mk "ul" [] none [.mk "li" [] (some "x") []]]

/-- Parsed children of the fragment `<p><b>bold</b></p>`. -/
def descPBold : List XNode := [.mk "p" [] none [.mk "b" [] (some "bold") []]]

/-- Parsed children of the fragment `<ul><p>x</p></ul>`. -/
def descUlP : List XNode := [.mk "ul" [] none [.mk "p" [] (some "x") []]]

/-- An element carrying `xml:lang` with an empty value and no other
    attribute, as `<p xml:lang="">t</p>` parses. -/
def nodeLangEmpty : XNode := .mk "p" [(xmlLangKey, "")] (some "t") []

/-- An element carrying `xml:lang="de"` beside another attribute. -/
def nodeLangExtra : XNode :=
  .mk "p" [(xmlLangKey, "de"), ("class", "x")] (some "t") []

/-- Input file whose single raw line embeds the `!!python/` marker and whose
    parsed stream is a valid header with no components. -/
def inputPyLine : InputFile := ⟨["!!python/foo"], .ok goodHeader []⟩

/-- Input file with a `!!python/` line and a header missing `Origin`. -/
def inputPyBadHeader : InputFile :=
  ⟨["!!python/foo"], .ok (.dict [("File", .s "DEP-11")]) []⟩

/-- Input file whose component stream contains one empty (`None`)
    document after a well-formed header. -/
def inputNullDoc : InputFile := ⟨[], .ok goodHeader [YValue.null]⟩

/-- A locale mapping whose sole key contains a space. -/
def spacedLocale : List (String × YValue) := [("en US", .s "hi")]

/-- A locale mapping exercising every advisory defect and no fatal one. -/
def cruftLocale : List (String × YValue) :=
  [("C", .s "ok"), ("x-test", .s "hi"), ("xx", .s "hi"),
   ("de.UTF-8", .s "hi"), ("fr", .s "\"quoted")]

/-- Every message of the list opens with the `[`-scoped component prefix,
    as all per-document messages of the source do. -/
def allBr (l : List String) : Prop := ∀ m ∈ l, m.data.head? = some '['

/-! ## Helper lemmas -/

/-- The empty issue list is scoped. -/
theorem allBr_nil : allBr [] := by
  intro m hm
  cases hm

/-- Scoped issue lists concatenate. -/
theorem allBr_append (l1 l2 : List String) (h1 : allBr l1) (h2 : allBr l2) :
    allBr (l1 ++ l2) := by
  intro m hm
  rcases List.mem_append.mp hm with h | h
  · exact h1 m h
  · exact h2 m h

/-- A one-message list headed by the scope bracket is scoped. -/
theorem allBr_single (msg : String) (h : msg.data.head? = some '[') :
    allBr [msg] := by
  intro m hm
  simp only [List.mem_singleton] at hm
  subst hm
  exact h

/-- A conditional one-message list headed by the scope bracket is scoped. -/
theorem allBr_ite (c : Prop) [Decidable c] (msg : String)
    (h : msg.data.head? = some '[') :
    allBr (if c then [msg] else []) := by
  split
  · exact allBr_single msg h
  · exact allBr_nil

/-- Combined sub-check results keep the scoped-issues property. -/
theorem allBr_combine (x y : Bool × List String) (hx : allBr x.2)
    (hy : allBr y.2) : allBr (combine x y).2 :=
  allBr_append _ _ hx hy

/-- Every message a locale entry emits is scoped. -/
theorem localeEntry_allBr (idS key lang : String) (v : YValue)
    (r : Bool × List String) (h : localeEntry idS key lang v = some r) :
    allBr r.2 := by
  cases v with
  | s t =>
    simp only [localeEntry] at h
    split at h
    · injection h with h
      subst h
      refine allBr_append _ _ (allBr_append _ _ (allBr_append _ _ (allBr_append _ _
        (allBr_ite _ _ ?_) (allBr_ite _ _ ?_)) (allBr_ite _ _ ?_)) (allBr_ite _ _ ?_))
        (allBr_single _ ?_) <;> rfl
    · injection h with h
      subst h
      refine allBr_append _ _ (allBr_append _ _ (allBr_append _ _ (allBr_ite _ _ ?_)
        (allBr_ite _ _ ?_)) (allBr_ite _ _ ?_)) (allBr_ite _ _ ?_) <;> rfl
  | i n => simp [localeEntry] at h
  | b v => simp [localeEntry] at h
  | arr xs => simp [localeEntry] at h
  | dict kvs => simp [localeEntry] at h
  | null => simp [localeEntry] at h

/-- A locale entry whose tag contains a space returns `False` and records
    the space message. -/
theorem localeEntry_space (idS key lang : String) (v : YValue)
    (r : Bool × List String) (hs : strContainsChar lang ' ' = true)
    (h : localeEntry idS key lang v = some r) :
    r.1 = false ∧ msgSpace idS key lang ∈ r.2 := by
  cases v with
  | s t =>
    simp only [localeEntry, hs, if_true] at h
    injection h with h
    subst h
    refine ⟨rfl, ?_⟩
    simp
  | i n => simp [localeEntry] at h
  | b v => simp [localeEntry] at h
  | arr xs => simp [localeEntry] at h
  | dict kvs => simp [localeEntry] at h
  | null => simp [localeEntry] at h

/-- A locale entry whose tag has no space returns `True` (the other defects
    are advisory). -/
theorem localeEntry_nospace (idS key lang : String) (v : YValue)
    (r : Bool × List String) (hs : strContainsChar lang ' ' = false)
    (h : localeEntry idS key lang v = some r) : r.1 = true := by
  cases v with
  | s t =>
    simp only [localeEntry, hs] at h
    injection h with h
    subst h
    rfl
  | i n => simp [localeEntry] at h
  | b v => simp [localeEntry] at h
  | arr xs => simp [localeEntry] at h
  | dict kvs => simp [localeEntry] at h
  | null => simp [localeEntry] at h

/-- A locale entry for the `x-test` tag records the cruft message. -/
theorem localeEntry_xtest (idS key : String) (v : YValue)
    (r : Bool × List String) (h : localeEntry idS key "x-test" v = some r) :
    msgCruft idS key "x-test" ∈ r.2 := by
  cases v with
  | s t =>
    simp only [localeEntry] at h
    split at h <;> (injection h with h; subst h) <;> simp
  | i n => simp [localeEntry] at h
  | b v => simp [localeEntry] at h
  | arr xs => simp [localeEntry] at h
  | dict kvs => simp [localeEntry] at h
  | null => simp [localeEntry] at h

/-- A locale entry for the `xx` tag records the cruft message. -/
theorem localeEntry_xx (idS key : String) (v : YValue)
    (r : Bool × List String) (h : localeEntry idS key "xx" v = some r) :
    msgCruft idS key "xx" ∈ r.2 := by
  cases v with
  | s t =>
    simp only [localeEntry] at h
    split at h <;> (injection h with h; subst h) <;> simp
  | i n => simp [localeEntry] at h
  | b v => simp [localeEntry] at h
  | arr xs => simp [localeEntry] at h
  | dict kvs => simp [localeEntry] at h
  | null => simp [localeEntry] at h

/-- A locale entry whose tag ends in `.UTF-8` records the encoding
    message. -/
theorem localeEntry_utf8 (idS key lang : String) (v : YValue)
    (r : Bool × List String) (hu : strEndsWith lang ".UTF-8" = true)
    (h : localeEntry idS key lang v = some r) : msgUTF8 idS key ∈ r.2 := by
  cases v with
  | s t =>
    simp only [localeEntry, hu] at h
    split at h <;> (injection h with h; subst h) <;> simp
  | i n => simp [localeEntry] at h
  | b v => simp [localeEntry] at h
  | arr xs => simp [localeEntry] at h
  | dict kvs => simp [localeEntry] at h
  | null => simp [localeEntry] at h

/-- A locale entry whose string value opens with a quote character records
    the quoted-value message. -/
theorem localeEntry_quoted (idS key lang t : String)
    (r : Bool × List String)
    (hq : (strStartsWith t "\"" || strStartsWith t sq) = true)
    (h : localeEntry idS key lang (.s t) = some r) :
    msgQuotedVal idS key t lang ∈ r.2 := by
  simp only [localeEntry, hq] at h
  split at h <;> (injection h with h; subst h) <;> simp

/-- Every message the localization audit of one mapping emits is scoped. -/
theorem testLocalizedDict_allBr (idS key : String)
    (l : List (String × YValue)) :
    ∀ r : Bool × List String, testLocalizedDict idS key l = some r →
      allBr r.2 := by
  induction l with
  | nil =>
    intro r h
    simp only [testLocalizedDict] at h
    injection h with h
    subst h
    exact allBr_nil
  | cons p rest ih =>
    obtain ⟨lang, v⟩ := p
    intro r h
    simp only [testLocalizedDict] at h
    cases he : localeEntry idS key lang v with
    | none => rw [he] at h; cases h
    | some r1 =>
      rw [he] at h
      cases ht : testLocalizedDict idS key rest with
      | none => rw [ht] at h; cases h
      | some r2 =>
        rw [ht] at h
        injection h with h
        subst h
        exact allBr_combine _ _ (localeEntry_allBr _ _ _ _ _ he) (ih r2 ht)

/-- The audit of a mapping succeeds entry by entry: every member entry has
    a defined locale-entry result whose issues all surface in the audit's
    issue list, and whose `False` makes the audit `False`. -/
theorem testLocalizedDict_entry (idS key : String)
    (l : List (String × YValue)) :
    ∀ r : Bool × List String, testLocalizedDict idS key l = some r →
      ∀ lang v, (lang, v) ∈ l →
        ∃ r1, localeEntry idS key lang v = some r1 ∧
          (∀ m ∈ r1.2, m ∈ r.2) ∧ (r1.1 = false → r.1 = false) := by
  induction l with
  | nil =>
    intro r _ lang v hmem
    cases hmem
  | cons p rest ih =>
    obtain ⟨lang0, v0⟩ := p
    intro r h lang v hmem
    simp only [testLocalizedDict] at h
    cases he : localeEntry idS key lang0 v0 with
    | none => rw [he] at h; cases h
    | some r1 =>
      rw [he] at h
      cases ht : testLocalizedDict idS key rest with
      | none => rw [ht] at h; cases h
      | some r2 =>
        rw [ht] at h
        injection h with h
        subst h
        rcases List.mem_cons.mp hmem with hhead | htail
        · injection hhead with h1 h2
          subst h1
          subst h2
          refine ⟨r1, he, ?_, ?_⟩
          · intro m hm
            exact List.mem_append_left _ hm
          · intro hf
            simp [combine, hf]
        · obtain ⟨r1t, het, hsub, himp⟩ := ih r2 ht lang v htail
          refine ⟨r1t, het, ?_, ?_⟩
          · intro m hm
            exact List.mem_append_right _ (hsub m hm)
          · intro hf
            simp [combine, himp hf]

/-- An audit over a mapping without space-bearing locale tags returns
    `True`. -/
theorem testLocalizedDict_true (idS key : String)
    (l : List (String × YValue))
    (hall : ∀ p ∈ l, strContainsChar p.1 ' ' = false) :
    ∀ r : Bool × List String, testLocalizedDict idS key l = some r →
      r.1 = true := by
  induction l with
  | nil =>
    intro r h
    simp only [testLocalizedDict] at h
    injection h with h
    subst h
    rfl
  | cons p rest ih =>
    obtain ⟨lang0, v0⟩ := p
    intro r h
    simp only [testLocalizedDict] at h
    cases he : localeEntry idS key lang0 v0 with
    | none => rw [he] at h; cases h
    | some r1 =>
      rw [he] at h
      cases ht : testLocalizedDict idS key rest with
      | none => rw [ht] at h; cases h
      | some r2 =>
        rw [ht] at h
        injection h with h
        subst h
        have h1 : r1.1 = true :=
          localeEntry_nospace _ _ _ _ _ (hall (lang0, v0) (by simp)) he
        have h2 : r2.1 = true :=
          ih (fun p hp => hall p (by simp [hp])) r2 ht
        simp [combine, h1, h2]

/-- Every message `_test_localized` emits is scoped. -/
theorem testLocalized_allBr (idS : String) (d : List (String × YValue))
    (key : String) (r : Bool × List String)
    (h : testLocalized idS d key = some r) : allBr r.2 := by
  cases hg : dictGet d key with
  | none =>
    simp only [testLocalized, hg] at h
    injection h with h
    subst h
    exact allBr_nil
  | some v =>
    simp only [testLocalized, hg] at h
    cases htr : truthy v with
    | false =>
      rw [if_pos (by rw [htr]; rfl)] at h
      injection h with h
      subst h
      exact allBr_nil
    | true =>
      rw [if_neg (by rw [htr]; simp)] at h
      cases v with
      | dict ldict => exact testLocalizedDict_allBr _ _ _ _ h
      | s t => cases h
      | i n => cases h
      | b b2 => cases h
      | arr xs => cases h
      | null => cases h

/-- Every message `_validate_description_tag` emits is scoped. -/
theorem validateDescriptionTag_allBr (idS : String) (child : XNode)
    (allowed : List String) :
    allBr (validateDescriptionTag idS child allowed).2 := by
  unfold validateDescriptionTag
  refine allBr_combine _ _ ?_ ?_
  · split
    · exact allBr_single _ rfl
    · exact allBr_nil
  · split
    · exact allBr_single _ rfl
    · split
      · exact allBr_single _ rfl
      · exact allBr_nil

/-- A fold of `combine` over per-element sub-checks keeps the scoped-issues
    property. -/
theorem foldl_combine_allBr {α : Type} (f : α → Bool × List String) :
    ∀ (l : List α) (acc : Bool × List String), allBr acc.2 →
      (∀ x ∈ l, allBr (f x).2) →
      allBr ((l.foldl (fun a x => combine a (f x)) acc)).2 := by
  intro l
  induction l with
  | nil =>
    intro acc hacc _
    simpa using hacc
  | cons x rest ih =>
    intro acc hacc hf
    simp only [List.foldl_cons]
    exact ih _ (allBr_combine _ _ hacc (hf x (by simp)))
      (fun y hy => hf y (by simp [hy]))

/-- Every message the list-item walk emits is scoped. -/
theorem validateListItems_allBr (idS : String) (items : List XNode) :
    allBr (validateListItems idS items).2 := by
  unfold validateListItems
  exact foldl_combine_allBr _ items (true, []) allBr_nil
    (fun x _ => validateDescriptionTag_allBr idS x ["li"])

/-- Every message `_validate_description` emits is scoped. -/
theorem validateDescription_allBr (idS : String) (p : DescParse) :
    allBr (validateDescription idS p).2 := by
  cases p with
  | fail e => exact allBr_single _ rfl
  | ok children =>
    unfold validateDescription
    refine foldl_combine_allBr _ children (true, []) allBr_nil ?_
    intro child _
    refine allBr_combine _ _ (validateDescriptionTag_allBr idS child _) ?_
    split
    · exact validateListItems_allBr idS child.children
    · exact allBr_nil

/-- The issue of the application-icon rule is scoped. -/
theorem iconRequired_allBr (idS : String) (d : List (String × YValue))
    (ty : YValue) : allBr (iconRequired idS d ty).2 := by
  unfold iconRequired
  split
  · exact allBr_single _ rfl
  · exact allBr_nil

/-- Every message the icon cross-field rules emit is scoped. -/
theorem iconChecks_allBr (idS : String) (d : List (String × YValue))
    (ty : YValue) (r : Bool × List String) (h : iconChecks idS d ty = some r) :
    allBr r.2 := by
  cases hg : dictGet d "Icon" with
  | none =>
    simp only [iconChecks, hg] at h
    injection h with h
    subst h
    exact iconRequired_allBr idS d ty
  | some ic =>
    cases ic with
    | dict icd =>
      simp only [iconChecks, hg] at h
      split at h
      · split at h
        · injection h with h
          subst h
          exact allBr_combine _ _ (iconRequired_allBr idS d ty)
            (allBr_single _ rfl)
        · injection h with h
          subst h
          exact iconRequired_allBr idS d ty
      · injection h with h
        subst h
        exact iconRequired_allBr idS d ty
    | s t =>
      simp only [iconChecks, hg] at h
      split at h
      · cases h
      · injection h with h; subst h; exact iconRequired_allBr idS d ty
    | i n =>
      simp only [iconChecks, hg] at h
      split at h
      · cases h
      · injection h with h; subst h; exact iconRequired_allBr idS d ty
    | b v =>
      simp only [iconChecks, hg] at h
      split at h
      · cases h
      · injection h with h; subst h; exact iconRequired_allBr idS d ty
    | arr xs =>
      simp only [iconChecks, hg] at h
      split at h
      · cases h
      · injection h with h; subst h; exact iconRequired_allBr idS d ty
    | null =>
      simp only [iconChecks, hg] at h
      split at h
      · cases h
      · injection h with h; subst h; exact iconRequired_allBr idS d ty

/-- Every message the caption audit of one screenshot emits is scoped. -/
theorem captionCheck_allBr (idS : String) (sd : List (String × YValue))
    (r : Bool × List String) (h : captionCheck idS sd = some r) :
    allBr r.2 := by
  cases hg : dictGet sd "caption" with
  | none =>
    simp only [captionCheck, hg] at h
    injection h with h
    subst h
    exact allBr_nil
  | some cap =>
    simp only [captionCheck, hg] at h
    cases htr : truthy cap with
    | false =>
      rw [if_pos (by rw [htr]; rfl)] at h
      injection h with h
      subst h
      exact allBr_nil
    | true =>
      rw [if_neg (by rw [htr]; simp)] at h
      cases cap with
      | dict c => exact testLocalizedDict_allBr _ _ _ _ h
      | s t => cases h
      | i n => cases h
      | b v => cases h
      | arr xs => cases h
      | null => cases h

/-- Every message the screenshot walk emits is scoped. -/
theorem shotFold_allBr (idS : String) :
    ∀ (shots : List YValue) (r : Bool × List String),
      shotFold idS shots = some r → allBr r.2 := by
  intro shots
  induction shots with
  | nil =>
    intro r h
    simp only [shotFold] at h
    injection h with h
    subst h
    exact allBr_nil
  | cons shot rest ih =>
    intro r h
    cases shot with
    | dict sd =>
      simp only [shotFold] at h
      cases hc : captionCheck idS sd with
      | none => rw [hc] at h; cases h
      | some r1 =>
        rw [hc] at h
        cases ht : shotFold idS rest with
        | none => rw [ht] at h; cases h
        | some r2 =>
          rw [ht] at h
          injection h with h
          subst h
          exact allBr_combine _ _ (captionCheck_allBr _ _ _ hc) (ih r2 ht)
    | s t => simp only [shotFold] at h; cases h
    | i n => simp only [shotFold] at h; cases h
    | b v => simp only [shotFold] at h; cases h
    | arr xs => simp only [shotFold] at h; cases h
    | null => simp only [shotFold] at h; cases h

/-- Every message the screenshots check emits is scoped. -/
theorem screenshotChecks_allBr (idS : String) (d : List (String × YValue))
    (r : Bool × List String) (h : screenshotChecks idS d = some r) :
    allBr r.2 := by
  cases hg : dictGet d "Screenshots" with
  | none =>
    simp only [screenshotChecks, hg] at h
    injection h with h
    subst h
    exact allBr_nil
  | some v =>
    cases v with
    | arr shots =>
      simp only [screenshotChecks, hg] at h
      exact shotFold_allBr idS shots r h
    | s t =>
      simp only [screenshotChecks, hg] at h
      split at h
      · injection h with h; subst h; exact allBr_nil
      · cases h
    | dict kvs =>
      simp only [screenshotChecks, hg] at h
      split at h
      · injection h with h; subst h; exact allBr_nil
      · cases h
    | i n => simp only [screenshotChecks, hg] at h; cases h
    | b v => simp only [screenshotChecks, hg] at h; cases h
    | null => simp only [screenshotChecks, hg] at h; cases h

/-- Every message the description-markup loop emits is scoped. -/
theorem descriptionChecks_allBr (pd : String → DescParse) (idS : String)
    (d : List (String × YValue)) (r : Bool × List String)
    (h : descriptionChecks pd idS d = some r) : allBr r.2 := by
  unfold descriptionChecks at h
  cases hg : dictGet d "Description" with
  | none =>
    rw [hg] at h
    injection h with h
    subst h
    exact allBr_nil
  | some v =>
    rw [hg] at h
    cases v with
    | dict dd =>
      injection h with h
      subst h
      exact foldl_combine_allBr _ dd (true, []) allBr_nil
        (fun kv _ => validateDescription_allBr idS _)
    | s t => cases h
    | i n => cases h
    | b v => cases h
    | arr xs => cases h
    | null => cases h

/-- Decomposition of a successful semantic-checks pass into its
    sub-checks. -/
theorem semanticChecks_parts (pd : String → DescParse) (idS : String)
    (d : List (String × YValue)) (r : Bool × List String)
    (h : semanticChecks pd idS d = some r) :
    ∃ ty r1 r2 r3 r4 r5 r6 r7,
      dictGet d "Type" = some ty ∧
      iconChecks idS d ty = some r1 ∧
      testLocalized idS d "Name" = some r2 ∧
      testLocalized idS d "Summary" = some r3 ∧
      testLocalized idS d "Description" = some r4 ∧
      testLocalized idS d "DeveloperName" = some r5 ∧
      screenshotChecks idS d = some r6 ∧
      descriptionChecks pd idS d = some r7 ∧
      r = combine r1 (combine r2 (combine r3 (combine r4
        (combine r5 (combine r6 r7))))) := by
  unfold semanticChecks at h
  cases hty : dictGet d "Type" with
  | none => simp only [hty] at h; cases h
  | some ty =>
  simp only [hty] at h
  cases h1 : iconChecks idS d ty with
  | none => simp only [h1] at h; cases h
  | some r1 =>
  simp only [h1] at h
  cases h2 : testLocalized idS d "Name" with
  | none => simp only [h2] at h; cases h
  | some r2 =>
  simp only [h2] at h
  cases h3 : testLocalized idS d "Summary" with
  | none => simp only [h3] at h; cases h
  | some r3 =>
  simp only [h3] at h
  cases h4 : testLocalized idS d "Description" with
  | none => simp only [h4] at h; cases h
  | some r4 =>
  simp only [h4] at h
  cases h5 : testLocalized idS d "DeveloperName" with
  | none => simp only [h5] at h; cases h
  | some r5 =>
  simp only [h5] at h
  cases h6 : screenshotChecks idS d with
  | none => simp only [h6] at h; cases h
  | some r6 =>
  simp only [h6] at h
  cases h7 : descriptionChecks pd idS d with
  | none => simp only [h7] at h; cases h
  | some r7 =>
  simp only [h7] at h
  injection h with h
  exact ⟨ty, r1, r2, r3, r4, r5, r6, r7, rfl, h1, rfl, rfl, rfl, rfl, rfl, rfl, h.symm⟩

/-- Every message the semantic checks emit is scoped. -/
theorem semanticChecks_allBr (pd : String → DescParse) (idS : String)
    (d : List (String × YValue)) (r : Bool × List String)
    (h : semanticChecks pd idS d = some r) : allBr r.2 := by
  obtain ⟨ty, r1, r2, r3, r4, r5, r6, r7, hty, h1, h2, h3, h4, h5, h6, h7, hr⟩ :=
    semanticChecks_parts pd idS d r h
  subst hr
  exact allBr_combine _ _ (iconChecks_allBr _ _ _ _ h1)
    (allBr_combine _ _ (testLocalized_allBr _ _ _ _ h2)
      (allBr_combine _ _ (testLocalized_allBr _ _ _ _ h3)
        (allBr_combine _ _ (testLocalized_allBr _ _ _ _ h4)
          (allBr_combine _ _ (testLocalized_allBr _ _ _ _ h5)
            (allBr_combine _ _ (screenshotChecks_allBr _ _ _ h6)
              (descriptionChecks_allBr _ _ _ _ h7))))))

/-- A non-empty mapping holding the key is itself non-empty. -/
theorem dictGet_ne_nil (d : List (String × YValue)) (k : String) (v : YValue)
    (h : dictGet d k = some v) : d.isEmpty = false := by
  cases d with
  | nil => simp [dictGet] at h
  | cons p rest => rfl

/-- A string different from the empty one is non-empty. -/
theorem ne_isEmpty_false (id : String) (hne : id ≠ "") :
    id.isEmpty = false := by
  cases hh : id.isEmpty with
  | false => rfl
  | true => exact absurd ((String.isEmpty_iff id).mp hh) hne

/-- Every successful per-document step either takes a fatal branch or folds
    the semantic checks into the state. -/
theorem processDoc_shape (pd : String → DescParse) (ids : List YValue)
    (st : VState) (doc : YValue) (ids2 : List YValue) (st2 : VState)
    (h : processDoc pd ids st doc = some (ids2, st2)) :
    (∃ m, st2 = st.fail m) ∨ (∃ r, st2 = applyCheck st r) := by
  cases doc with
  | dict d =>
    simp only [processDoc] at h
    split at h
    · injection h with h
      exact Or.inl ⟨_, congrArg Prod.snd h.symm⟩
    · split at h
      · injection h with h
        exact Or.inl ⟨_, congrArg Prod.snd h.symm⟩
      · cases hid : dictGet d "ID" with
        | none => simp only [hid] at h; cases h
        | some idv =>
          simp only [hid] at h
          split at h
          · cases h
          · split at h
            · injection h with h
              exact Or.inl ⟨_, congrArg Prod.snd h.symm⟩
            · cases hs : schemaComponent (.dict d) with
              | some e =>
                simp only [hs] at h
                injection h with h
                exact Or.inl ⟨_, congrArg Prod.snd h.symm⟩
              | none =>
                simp only [hs] at h
                cases hsem : semanticChecks pd (pyStr idv) d with
                | none => simp only [hsem] at h; cases h
                | some r =>
                  simp only [hsem] at h
                  injection h with h
                  exact Or.inr ⟨r, congrArg Prod.snd h.symm⟩
  | s t => cases h
  | i n => cases h
  | b v => cases h
  | arr xs => cases h
  | null => cases h

/-- A successful per-document step only appends issues and never resets a
    failed verdict. -/
theorem processDoc_extend (pd : String → DescParse) (ids : List YValue)
    (st : VState) (doc : YValue) (ids2 : List YValue) (st2 : VState)
    (h : processDoc pd ids st doc = some (ids2, st2)) :
    st.issues <+: st2.issues ∧ (st.ret = false → st2.ret = false) := by
  rcases processDoc_shape pd ids st doc ids2 st2 h with ⟨m, rfl⟩ | ⟨r, rfl⟩
  · exact ⟨List.prefix_append _ _, fun _ => rfl⟩
  · refine ⟨List.prefix_append _ _, fun hf => ?_⟩
    show (st.ret && r.1) = false
    rw [hf]
    rfl

/-- The document loop only appends issues and never resets a failed
    verdict. -/
theorem processDocs_extend (pd : String → DescParse) (docs : List YValue) :
    ∀ (ids : List YValue) (st st2 : VState),
      processDocs pd docs ids st = some st2 →
      st.issues <+: st2.issues ∧ (st.ret = false → st2.ret = false) := by
  induction docs with
  | nil =>
    intro ids st st2 h
    simp only [processDocs] at h
    injection h with h
    subst h
    exact ⟨List.prefix_rfl, id⟩
  | cons doc rest ih =>
    intro ids st st2 h
    simp only [processDocs] at h
    cases hp : processDoc pd ids st doc with
    | none => rw [hp] at h; cases h
    | some p =>
      rw [hp] at h
      obtain ⟨ids3, st3⟩ := p
      obtain ⟨h1, h2⟩ := processDoc_extend pd ids st doc ids3 st3 hp
      obtain ⟨h3, h4⟩ := ih ids3 st3 st2 h
      exact ⟨h1.trans h3, fun hf => h4 (h2 hf)⟩

/-- A non-empty mapping document with a falsy `ID` takes the missing-ID
    branch: one fatal issue, no registration, nothing else. -/
theorem processDoc_noid (pd : String → DescParse) (ids : List YValue)
    (st : VState) (d : List (String × YValue)) (hdne : d.isEmpty = false)
    (hid : truthyO (dictGet d "ID") = false) :
    processDoc pd ids st (.dict d) = some (ids, st.fail msgNoId) := by
  simp [processDoc, hdne, hid]

/-- A document whose non-empty string `ID` is already registered takes the
    duplicate-ID branch: one fatal issue, no registration, nothing else. -/
theorem processDoc_dup (pd : String → DescParse) (ids : List YValue)
    (st : VState) (d : List (String × YValue)) (id : String)
    (hid : dictGet d "ID" = some (.s id)) (hne : id ≠ "")
    (hdup : ids.any (fun x => beqScalar x (.s id)) = true) :
    processDoc pd ids st (.dict d) = some (ids, st.fail (msgDup id)) := by
  have hdne := dictGet_ne_nil d "ID" _ hid
  have hie := ne_isEmpty_false id hne
  simp [processDoc, hid, hdne, hie, truthyO, truthy, hashable, hdup, pyStr]

/-- A document with a fresh non-empty string `ID` that fails the schema
    check registers the `ID`, records the one schema issue and skips the
    semantic checks. -/
theorem processDoc_schemaFail (pd : String → DescParse) (ids : List YValue)
    (st : VState) (d : List (String × YValue)) (id e : String)
    (hid : dictGet d "ID" = some (.s id)) (hne : id ≠ "")
    (hdup : ids.any (fun x => beqScalar x (.s id)) = false)
    (hschema : schemaComponent (.dict d) = some e) :
    processDoc pd ids st (.dict d) =
      some (ids ++ [YValue.s id], st.fail (msgSchema id e)) := by
  have hdne := dictGet_ne_nil d "ID" _ hid
  have hie := ne_isEmpty_false id hne
  simp [processDoc, hid, hdne, hie, truthyO, truthy, hashable, hdup, hschema,
    pyStr]

/-- A document with a fresh non-empty string `ID` that passes the schema
    check registers the `ID` and folds the semantic checks into the state
    (raising when they raise). -/
theorem processDoc_schemaOk (pd : String → DescParse) (ids : List YValue)
    (st : VState) (d : List (String × YValue)) (id : String)
    (hid : dictGet d "ID" = some (.s id)) (hne : id ≠ "")
    (hdup : ids.any (fun x => beqScalar x (.s id)) = false)
    (hschema : schemaComponent (.dict d) = none) :
    processDoc pd ids st (.dict d) =
      (match semanticChecks pd id d with
       | none => none
       | some r => some (ids ++ [YValue.s id], applyCheck st r)) := by
  have hdne := dictGet_ne_nil d "ID" _ hid
  have hie := ne_isEmpty_false id hne
  cases hsem : semanticChecks pd id d with
  | none =>
    simp [processDoc, hid, hdne, hie, truthyO, truthy, hashable, hdup, hschema,
      pyStr, hsem]
  | some r =>
    simp [processDoc, hid, hdne, hie, truthyO, truthy, hashable, hdup, hschema,
      pyStr, hsem]

/-- Backwards reading of a successful schema-passing step. -/
theorem processDoc_sem (pd : String → DescParse) (ids : List YValue)
    (st : VState) (d : List (String × YValue)) (id : String)
    (ids2 : List YValue) (st2 : VState)
    (hid : dictGet d "ID" = some (.s id)) (hne : id ≠ "")
    (hdup : ids.any (fun x => beqScalar x (.s id)) = false)
    (hschema : schemaComponent (.dict d) = none)
    (h : processDoc pd ids st (.dict d) = some (ids2, st2)) :
    ∃ r, semanticChecks pd id d = some r ∧ st2 = applyCheck st r ∧
      ids2 = ids ++ [YValue.s id] := by
  rw [processDoc_schemaOk pd ids st d id hid hne hdup hschema] at h
  cases hsem : semanticChecks pd id d with
  | none => simp only [hsem] at h; cases h
  | some r =>
    simp only [hsem] at h
    injection h with h
    cases h
    exact ⟨r, rfl, rfl, rfl⟩

/-- Processing a document with a fresh non-empty string `ID` from a clean
    state registers exactly that `ID` and leaves only scoped issues. -/
theorem processDoc_fresh (pd : String → DescParse)
    (d : List (String × YValue)) (id : String) (ids1 : List YValue)
    (st1 : VState) (hid : dictGet d "ID" = some (.s id)) (hne : id ≠ "")
    (h : processDoc pd [] ⟨true, []⟩ (.dict d) = some (ids1, st1)) :
    ids1 = [YValue.s id] ∧ allBr st1.issues := by
  cases hs : schemaComponent (.dict d) with
  | some e =>
    rw [processDoc_schemaFail pd [] ⟨true, []⟩ d id e hid hne rfl hs] at h
    injection h with h
    cases h
    exact ⟨rfl, allBr_single _ rfl⟩
  | none =>
    obtain ⟨r, hsem, hst, hids⟩ :=
      processDoc_sem pd [] ⟨true, []⟩ d id ids1 st1 hid hne rfl hs h
    subst hst
    subst hids
    exact ⟨rfl, semanticChecks_allBr pd id d r hsem⟩

/-- A line of the suffix starting at index `j` that embeds the `!!python/`
    marker makes the pre-pass fail and records the message naming its
    index. -/
theorem tcoAux_hit (lines : List String) :
    ∀ (j i : Nat) (line : String), lines.get? i = some line →
      containsSub line "!!python/" = true →
      (tcoAux j lines).1 = false ∧ msgPyObj (j + i) ∈ (tcoAux j lines).2 := by
  induction lines with
  | nil =>
    intro j i line hg _
    simp at hg
  | cons l rest ih =>
    intro j i line hg hhit
    cases i with
    | zero =>
      simp only [List.get?] at hg
      injection hg with hg
      subst hg
      simp [tcoAux, hhit]
    | succ k =>
      simp only [List.get?] at hg
      obtain ⟨h1, h2⟩ := ih (j + 1) k line hg hhit
      have hadd : j + (k + 1) = (j + 1) + k := by omega
      rw [hadd]
      simp only [tcoAux]
      split
      · exact ⟨rfl, List.mem_append_right _ h2⟩
      · exact ⟨h1, h2⟩

/-! ## Claim theorems -/

/-- C1 counterexample: a desktop-app document that fails the schema check
    (its required `Packages` field is missing) and carries no `Icon` —
    processing records only the schema issue; the icon semantic check,
    which would have flagged the missing `Icon`, never runs, contrary to
    the claim that semantic checks still run after a schema failure. -/
theorem spec_C1_counterexample :
    processDoc pdNone [] ⟨true, []⟩ (.dict noPkgKvs) =
      some ([YValue.s "app"],
        ⟨false, [msgSchema "app" (msgReqKey "Packages")]⟩)
    ∧ msgNeedIcon "app" ∉ [msgSchema "app" (msgReqKey "Packages")] := by
  constructor
  · rfl
  · decide

/-- C1 (amended): for every component document whose ID is non-empty and
    not a duplicate, a failing structural schema check makes the run
    verdict false and records exactly one issue for the document, and the
    subsequent semantic checks (icon rules, localization audits,
    description markup) are skipped for that document (`continue`). -/
theorem spec_C1 (pd : String → DescParse) (ids : List YValue) (st : VState)
    (d : List (String × YValue)) (id e : String)
    (hid : dictGet d "ID" = some (.s id)) (hne : id ≠ "")
    (hdup : ids.any (fun x => beqScalar x (.s id)) = false)
    (hschema : schemaComponent (.dict d) = some e) :
    processDoc pd ids st (.dict d) =
      some (ids ++ [YValue.s id], st.fail (msgSchema id e)) :=
  processDoc_schemaFail pd ids st d id e hid hne hdup hschema

/-- C1 witness: the amended claim instantiated on the concrete
    missing-`Packages` document. -/
theorem spec_C1_witness :
    processDoc pdNone [] ⟨true, []⟩ (.dict noPkgKvs) =
      some ([] ++ [YValue.s "app"],
        VState.fail ⟨true, []⟩ (msgSchema "app" (msgReqKey "Packages"))) :=
  spec_C1 pdNone [] ⟨true, []⟩ noPkgKvs "app" (msgReqKey "Packages") rfl
    (by decide) rfl rfl

/-- C2 counterexample: the fragment `<p><b>bold</b></p>` is accepted with
    no issue and result `True` — the walker never descends below a `p`
    element — where the claim demands rejection with an issue and
    `False`. -/
theorem spec_C2_counterexample :
    validateDescription "app" (.ok descPBold) = (true, []) := rfl

/-- C2 (amended): `<p>ok</p>` and `<ul><li>x</li></ul>` pass with no
    issue; `<ul><p>x</p></ul>` is rejected, recording one issue and
    returning `False`; and — correcting the original claim —
    `<p><b>bold</b></p>` also passes, because the validator walks only the
    root's children and the children of `ul`/`ol`, never inside `p`. -/
theorem spec_C2 :
    validateDescription "app" (.ok descPOk) = (true, [])
    ∧ validateDescription "app" (.ok descUlOk) = (true, [])
    ∧ validateDescription "app" (.ok descPBold) = (true, [])
    ∧ validateDescription "app" (.ok descUlP) =
        (false, [msgBadTag "app" "p"]) :=
  ⟨rfl, rfl, rfl, rfl⟩

/-- C3 (code bug): `issue_list` is a class attribute shared across runs and
    `clear_issues` (missing `self`) always raises, so a second `validate`
    call on the same unmodified file starts from the first call's issue
    list and ends with that issue duplicated: the lists observed after the
    two runs differ, against the claimed idempotence. -/
theorem spec_C3 :
    validate pdNone inputPyLine [] = some (false, [msgPyObj 0])
    ∧ validate pdNone inputPyLine [msgPyObj 0] =
        some (false, [msgPyObj 0, msgPyObj 0])
    ∧ [msgPyObj 0, msgPyObj 0] ≠ [msgPyObj 0]
    ∧ clearIssues = none := by
  refine ⟨rfl, rfl, ?_, rfl⟩
  decide

/-- C4 (code bug): on a catalog containing an empty (`None`) document,
    `validate` propagates an exception to its caller — `doc.get('ID')`
    runs before the `if not doc` guard — instead of recording the
    empty-document issue and returning a boolean verdict. -/
theorem spec_C4 :
    processDoc pdNone [] ⟨true, []⟩ YValue.null = none
    ∧ validate pdNone inputNullDoc [] = none :=
  ⟨rfl, rfl⟩

/-- C5: a non-empty component document with an empty or missing `ID` takes
    the missing-ID branch — one fatal issue, the document skipped, the
    verdict `False` — and the duplicate-ID check is never reached for it,
    whatever came before; two empty-ID documents in a row record two
    missing-ID issues and never a duplicate-ID issue. -/
theorem spec_C5 :
    (∀ (pd : String → DescParse) (ids : List YValue) (st : VState)
       (d : List (String × YValue)), d.isEmpty = false →
       truthyO (dictGet d "ID") = false →
       processDoc pd ids st (.dict d) = some (ids, st.fail msgNoId))
    ∧ (∀ (pd : String → DescParse) (ids : List YValue) (st : VState)
       (d1 d2 : List (String × YValue)),
       d1.isEmpty = false → d2.isEmpty = false →
       truthyO (dictGet d1 "ID") = false → truthyO (dictGet d2 "ID") = false →
       processDocs pd [.dict d1, .dict d2] ids st =
         some ((st.fail msgNoId).fail msgNoId)) := by
  constructor
  · exact processDoc_noid
  · intro pd ids st d1 d2 h1 h2 h3 h4
    simp only [processDocs, processDoc_noid pd ids st d1 h1 h3,
      processDoc_noid pd ids (st.fail msgNoId) d2 h2 h4]

/-- C5 witness: the first part instantiated on a document without `ID`. -/
theorem spec_C5_witness :
    processDoc pdNone [] ⟨true, []⟩ (.dict [("Name", YValue.s "x")]) =
      some ([], VState.fail ⟨true, []⟩ msgNoId) :=
  spec_C5.1 pdNone [] ⟨true, []⟩ [("Name", YValue.s "x")] rfl rfl

/-- C6: in a catalog of exactly two components bearing the same non-empty
    string `ID`, the first processed normally, the second is rejected at
    the duplicate-ID guard: the run ends with exactly one duplicate-ID
    issue naming that `ID` appended for it (no further checks ran on it)
    and the verdict `False`. -/
theorem spec_C6 (pd : String → DescParse) (d1 d2 : List (String × YValue))
    (id : String) (ids1 : List YValue) (st1 : VState)
    (hid1 : dictGet d1 "ID" = some (.s id))
    (hid2 : dictGet d2 "ID" = some (.s id))
    (hne : id ≠ "")
    (h1 : processDoc pd [] ⟨true, []⟩ (.dict d1) = some (ids1, st1)) :
    processDocs pd [.dict d1, .dict d2] [] ⟨true, []⟩ =
      some (st1.fail (msgDup id))
    ∧ (st1.fail (msgDup id)).issues.count (msgDup id) = 1
    ∧ (st1.fail (msgDup id)).ret = false := by
  obtain ⟨hids, hbr⟩ := processDoc_fresh pd d1 id ids1 st1 hid1 hne h1
  subst hids
  have hdup : ([YValue.s id]).any (fun x => beqScalar x (.s id)) = true := by
    simp [beqScalar]
  have h2 := processDoc_dup pd [YValue.s id] st1 d2 id hid2 hne hdup
  have hnotin : msgDup id ∉ st1.issues := by
    intro hm
    have h3 := hbr _ hm
    have h4 : (msgDup id).data.head? = some 'F' := rfl
    rw [h4] at h3
    exact absurd h3 (by decide)
  refine ⟨?_, ?_, rfl⟩
  · simp only [processDocs, h1, h2]
  · show (st1.issues ++ [msgDup id]).count (msgDup id) = 1
    rw [List.count_append, List.count_eq_zero.mpr hnotin]
    simp

/-- C6 witness: the claim instantiated on two copies of the well-formed
    desktop-app component. -/
theorem spec_C6_witness :
    processDocs pdNone [.dict goodDocKvs, .dict goodDocKvs] [] ⟨true, []⟩ =
      some (VState.fail ⟨true, []⟩ (msgDup "app"))
    ∧ (VState.fail ⟨true, []⟩ (msgDup "app")).issues.count (msgDup "app") = 1
    ∧ (VState.fail ⟨true, []⟩ (msgDup "app")).ret = false :=
  spec_C6 pdNone goodDocKvs goodDocKvs "app" [YValue.s "app"] ⟨true, []⟩ rfl rfl
    (by decide) rfl

/-- C7: a schema-valid component of an application kind (`desktop-app` or
    `web-app`) with no `Icon` field gets the icon issue recorded and drops
    the verdict to `False`; a schema-valid component whose `Icon` mapping
    has none of `stock`, `cached`, `local` gets the icon-source issue
    recorded and drops the verdict to `False`; and the concrete desktop-app
    with `Icon: {stock: "foo"}` passes with no issue at all. -/
theorem spec_C7 :
    (∀ (pd : String → DescParse) (ids : List YValue) (st : VState)
       (d : List (String × YValue)) (id : String) (ty : YValue)
       (ids2 : List YValue) (st2 : VState),
       dictGet d "ID" = some (.s id) → id ≠ "" →
       ids.any (fun x => beqScalar x (.s id)) = false →
       schemaComponent (.dict d) = none →
       dictGet d "Type" = some ty → isAppType ty = true →
       dictGet d "Icon" = none →
       processDoc pd ids st (.dict d) = some (ids2, st2) →
       msgNeedIcon id ∈ st2.issues ∧ st2.ret = false)
    ∧ (∀ (pd : String → DescParse) (ids : List YValue) (st : VState)
       (d : List (String × YValue)) (id : String)
       (ic : List (String × YValue)) (ids2 : List YValue) (st2 : VState),
       dictGet d "ID" = some (.s id) → id ≠ "" →
       ids.any (fun x => beqScalar x (.s id)) = false →
       schemaComponent (.dict d) = none →
       dictGet d "Icon" = some (.dict ic) → ic.isEmpty = false →
       dictGet ic "stock" = none → dictGet ic "cached" = none →
       dictGet ic "local" = none →
       processDoc pd ids st (.dict d) = some (ids2, st2) →
       msgIconSource id ∈ st2.issues ∧ st2.ret = false)
    ∧ processDoc pdNone [] ⟨true, []⟩ (.dict goodDocKvs) =
        some ([YValue.s "app"], ⟨true, []⟩) := by
  refine ⟨?_, ?_, rfl⟩
  · intro pd ids st d id ty ids2 st2 hid hne hdup hschema hty happ hicon h
    obtain ⟨r, hsem, hst, _⟩ :=
      processDoc_sem pd ids st d id ids2 st2 hid hne hdup hschema h
    obtain ⟨ty2, r1, r2, r3, r4, r5, r6, r7, hty2, hic, _, _, _, _, _, _, hr⟩ :=
      semanticChecks_parts pd id d r hsem
    rw [hty] at hty2
    injection hty2 with hty2
    subst hty2
    have hr1 : r1 = (false, [msgNeedIcon id]) := by
      rw [iconChecks, hicon] at hic
      simp only [iconRequired, hicon, truthyO, happ, Bool.not_false,
        Bool.and_true, if_pos] at hic
      injection hic with hic
      exact hic.symm
    subst hst
    subst hr
    subst hr1
    constructor
    · exact List.mem_append_right _ (List.mem_append_left _ (by simp))
    · simp [applyCheck, combine]
  · intro pd ids st d id ic ids2 st2 hid hne hdup hschema hicon hicne hstock
      hcached hlocal h
    obtain ⟨r, hsem, hst, _⟩ :=
      processDoc_sem pd ids st d id ids2 st2 hid hne hdup hschema h
    obtain ⟨ty2, r1, r2, r3, r4, r5, r6, r7, hty2, hic, _, _, _, _, _, _, hr⟩ :=
      semanticChecks_parts pd id d r hsem
    have hr1 : r1 = (false, [msgIconSource id]) := by
      rw [iconChecks, hicon] at hic
      simp only [truthy, hicne, Bool.not_false, if_pos, iconSourceMissing,
        hstock, hcached, hlocal, truthyO, Bool.and_true, iconRequired, hicon,
        Bool.not_true, Bool.and_false, if_neg] at hic
      simp only [combine] at hic
      injection hic with hic
      exact hic.symm
    subst hst
    subst hr
    subst hr1
    constructor
    · exact List.mem_append_right _ (List.mem_append_left _ (by simp))
    · simp [applyCheck, combine]

/-- C7 witness: the first icon rule instantiated on the schema-valid
    desktop-app without `Icon`. -/
theorem spec_C7_witness :
    msgNeedIcon "app" ∈ (⟨false, [msgNeedIcon "app"]⟩ : VState).issues ∧
    (⟨false, [msgNeedIcon "app"]⟩ : VState).ret = false :=
  spec_C7.1 pdNone [] ⟨true, []⟩ noIconKvs "app" (YValue.s "desktop-app")
    [YValue.s "app"] ⟨false, [msgNeedIcon "app"]⟩ rfl (by decide) rfl rfl rfl
    rfl rfl rfl

/-- C8: in the localization audit, a locale key containing a space records
    the space issue and makes the audit return `False`; with no
    space-bearing key the audit returns `True` even though the `x-test`,
    `xx`, `.UTF-8`-suffixed keys and quote-opening values each record their
    advisory issue; and a `False` audit result drops the caller's running
    verdict to `False`. -/
theorem spec_C8 :
    (∀ (idS key : String) (l : List (String × YValue)) (lang : String)
       (v : YValue) (r : Bool × List String),
       (lang, v) ∈ l → strContainsChar lang ' ' = true →
       testLocalizedDict idS key l = some r →
       r.1 = false ∧ msgSpace idS key lang ∈ r.2)
    ∧ (∀ (idS key : String) (l : List (String × YValue))
       (r : Bool × List String),
       (∀ p ∈ l, strContainsChar p.1 ' ' = false) →
       testLocalizedDict idS key l = some r → r.1 = true)
    ∧ (∀ (idS key : String) (l : List (String × YValue)) (v : YValue)
       (r : Bool × List String), ("x-test", v) ∈ l →
       testLocalizedDict idS key l = some r →
       msgCruft idS key "x-test" ∈ r.2)
    ∧ (∀ (idS key : String) (l : List (String × YValue)) (v : YValue)
       (r : Bool × List String), ("xx", v) ∈ l →
       testLocalizedDict idS key l = some r →
       msgCruft idS key "xx" ∈ r.2)
    ∧ (∀ (idS key : String) (l : List (String × YValue)) (lang : String)
       (v : YValue) (r : Bool × List String), (lang, v) ∈ l →
       strEndsWith lang ".UTF-8" = true →
       testLocalizedDict idS key l = some r → msgUTF8 idS key ∈ r.2)
    ∧ (∀ (idS key : String) (l : List (String × YValue)) (lang t : String)
       (r : Bool × List String), (lang, YValue.s t) ∈ l →
       (strStartsWith t "\"" || strStartsWith t sq) = true →
       testLocalizedDict idS key l = some r →
       msgQuotedVal idS key t lang ∈ r.2)
    ∧ (∀ (st : VState) (r : Bool × List String), r.1 = false →
       (applyCheck st r).ret = false) := by
  refine ⟨?_, ?_, ?_, ?_, ?_, ?_, ?_⟩
  · intro idS key l lang v r hmem hs h
    obtain ⟨r1, he, hsub, himp⟩ := testLocalizedDict_entry idS key l r h lang v hmem
    obtain ⟨hf, hm⟩ := localeEntry_space idS key lang v r1 hs he
    exact ⟨himp hf, hsub _ hm⟩
  · intro idS key l r hall h
    exact testLocalizedDict_true idS key l hall r h
  · intro idS key l v r hmem h
    obtain ⟨r1, he, hsub, _⟩ := testLocalizedDict_entry idS key l r h "x-test" v hmem
    exact hsub _ (localeEntry_xtest idS key v r1 he)
  · intro idS key l v r hmem h
    obtain ⟨r1, he, hsub, _⟩ := testLocalizedDict_entry idS key l r h "xx" v hmem
    exact hsub _ (localeEntry_xx idS key v r1 he)
  · intro idS key l lang v r hmem hu h
    obtain ⟨r1, he, hsub, _⟩ := testLocalizedDict_entry idS key l r h lang v hmem
    exact hsub _ (localeEntry_utf8 idS key lang v r1 hu he)
  · intro idS key l lang t r hmem hq h
    obtain ⟨r1, he, hsub, _⟩ :=
      testLocalizedDict_entry idS key l r h lang (YValue.s t) hmem
    exact hsub _ (localeEntry_quoted idS key lang t r1 hq he)
  · intro st r hf
    simp [applyCheck, hf]

/-- C8 witness: the fatal conjunct instantiated on the mapping whose sole
    locale key is `"en US"`. -/
theorem spec_C8_witness :
    ((false, [msgSpace "app" "Name" "en US"]) : Bool × List String).1 = false
    ∧ msgSpace "app" "Name" "en US" ∈
        ((false, [msgSpace "app" "Name" "en US"]) : Bool × List String).2 :=
  spec_C8.1 "app" "Name" spacedLocale "en US" (YValue.s "hi")
    (false, [msgSpace "app" "Name" "en US"]) (by simp [spacedLocale]) rfl rfl

/-- C9: the pre-pass records, for every raw line embedding `!!python/`, one
    issue naming that line's index and makes the pre-pass fail; any
    completed run whose pre-pass failed has verdict `False` with the
    pre-pass issues still at the front of the issue list; and on a concrete
    file the header check still runs afterwards and records its own
    issue. -/
theorem spec_C9 :
    (∀ (lines : List String) (i : Nat) (line : String),
       lines.get? i = some line → containsSub line "!!python/" = true →
       (testCustomObjects lines).1 = false ∧
         msgPyObj i ∈ (testCustomObjects lines).2)
    ∧ (∀ (pd : String → DescParse) (input : InputFile)
       (issues0 : List String) (r : Bool × List String),
       (testCustomObjects input.lines).1 = false →
       validate pd input issues0 = some r →
       r.1 = false ∧ (issues0 ++ (testCustomObjects input.lines).2) <+: r.2)
    ∧ validate pdNone inputPyBadHeader [] =
        some (false, [msgPyObj 0, msgHeaderBad (msgReqKey "Origin")]) := by
  refine ⟨?_, ?_, rfl⟩
  · intro lines i line hg hhit
    have h := tcoAux_hit lines 0 i line hg hhit
    rw [Nat.zero_add] at h
    exact h
  · intro pd input issues0 r hfalse h
    obtain ⟨lines, parsed⟩ := input
    cases parsed with
    | fail e =>
      simp only [validate, VState.fail] at h
      injection h with h
      subst h
      exact ⟨rfl, List.prefix_append _ _⟩
    | ok header docs =>
      cases hh : schemaHeader header with
      | none =>
        simp only [validate, hh] at h
        split at h
        · cases h
        · rename_i st2 hps
          injection h with h
          subst h
          have hext := processDocs_extend pd docs [] _ st2 hps
          exact ⟨hext.2 hfalse, hext.1⟩
      | some e =>
        simp only [validate, hh] at h
        split at h
        · cases h
        · rename_i st2 hps
          injection h with h
          subst h
          have hext := processDocs_extend pd docs [] _ st2 hps
          exact ⟨hext.2 rfl, (List.prefix_append _ _).trans hext.1⟩

/-- C9 witness: the per-line conjunct instantiated on the one-line file
    embedding the marker. -/
theorem spec_C9_witness :
    (testCustomObjects ["!!python/foo"]).1 = false ∧
      msgPyObj 0 ∈ (testCustomObjects ["!!python/foo"]).2 :=
  spec_C9.1 ["!!python/foo"] 0 "!!python/foo" rfl rfl

/-- C10 counterexample: an element carrying `xml:lang` with an empty value
    (`<p xml:lang="">t</p>`) gets the generic has-attributes issue, not the
    localized-tag issue — the code tests the attribute's truthiness, not
    its presence. -/
theorem spec_C10_counterexample :
    validateDescriptionTag "app" nodeLangEmpty ["p", "ul", "ol"] =
      (false, [msgAttrs "app" "p" [(xmlLangKey, "")]])
    ∧ msgLocTag "app" "p" (some "t") ∉
        [msgAttrs "app" "p" [(xmlLangKey, "")]] := by
  constructor
  · rfl
  · decide

/-- C10 (amended): for every element whose `xml:lang` attribute has a
    non-empty value, exactly one attribute issue — the localized-tag one —
    is recorded even when other attributes are present; the generic
    has-attributes issue is emitted exactly for attributed elements whose
    `xml:lang` is absent or empty. -/
theorem spec_C10 :
    (∀ (idS : String) (child : XNode) (allowed : List String),
       truthyS (attribGet child.attrib xmlLangKey) = true →
       validateDescriptionTag idS child allowed =
         (false, (if allowed.contains child.tag then ([] : List String)
                  else [msgBadTag idS child.tag])
           ++ [msgLocTag idS child.tag child.text]))
    ∧ (∀ (idS : String) (child : XNode) (allowed : List String),
       truthyS (attribGet child.attrib xmlLangKey) = false →
       child.attrib.length > 0 →
       validateDescriptionTag idS child allowed =
         (false, (if allowed.contains child.tag then ([] : List String)
                  else [msgBadTag idS child.tag])
           ++ [msgAttrs idS child.tag child.attrib])) := by
  constructor
  · intro idS child allowed hlang
    by_cases hc : allowed.contains child.tag = true
    · simp [validateDescriptionTag, hlang, hc, combine]
      split <;> rfl
    · simp only [Bool.not_eq_true] at hc
      simp [validateDescriptionTag, hlang, hc, combine]
      split <;> rfl
  · intro idS child allowed hlang hlen
    by_cases hc : allowed.contains child.tag = true
    · simp [validateDescriptionTag, hlang, hc, hlen, combine]
      split <;> rfl
    · simp only [Bool.not_eq_true] at hc
      simp [validateDescriptionTag, hlang, hc, hlen, combine]
      split <;> rfl

/-- C10 witness: the amended claim instantiated on
    `<p xml:lang="de" class="x">t</p>`. -/
theorem spec_C10_witness :
    validateDescriptionTag "app" nodeLangExtra ["p", "ul", "ol"] =
      (false, [msgLocTag "app" "p" (some "t")]) :=
  spec_C10.1 "app" nodeLangExtra ["p", "ul", "ol"] rfl

end DEP11
